import Mathlib

/-!
Verification of the core simulation of the submarine game (src/main.rs).

Modelling conventions for the shallow embedding:

* f32 scalars are modelled as exact rational numbers (ℚ): arithmetic is
  ideal, with no rounding.  Decimal literals of the source (0.3, 0.9, ...)
  denote the corresponding exact rationals.
* The float constant std::f32::consts::PI is modelled by the exact value of
  the f32 constant, 13176795/4194304, so that the modulus arithmetic of
  normalize_angle and camera_follow is exact and decidable.
* Rust's float remainder a % b is a - b * trunc (a / b) (truncation toward
  zero, result carries the sign of the dividend); rustRem below.
* The library transcendental functions (sin, cos, atan2, sqrt) have no
  computable exact counterpart on ℚ; they are abstracted as a record of
  operations (FloatOps) passed to every definition that calls them.
  Theorems constrain these operations only by the mathematical identities
  of the real functions that the claims rely on (e.g. cos (pi/2) = 0), and
  witnesses instantiate them with concrete computable functions.
* The submarine transform's rotation is only ever composed with
  Quat::from_rotation_y in the source, hence it stays a rotation about the
  world Y axis; it is modelled as the pair of the cosine and sine of the
  yaw angle (structure Rot).
* Comparisons of the form v.length() > 0.0 are modelled as normSq v > 0,
  which is equivalent for the real square root.
-/

namespace Submarine

/-- Exact value of the f32 constant std::f32::consts::PI. -/
def PI : ℚ := 13176795 / 4194304

/-- Exact value of the f32 constant std::f32::consts::FRAC_PI_2. -/
def FRAC_PI_2 : ℚ := 13176795 / 8388608

-- Constants from src/main.rs
def SONAR_RANGE : ℚ := 50
def SONAR_CENTER_X : ℚ := 100
def SONAR_CENTER_Y : ℚ := 100
def SONAR_RADIUS : ℚ := 75
def SWEEP_SPEED : ℚ := 1
def BASE_BUOYANCY_FORCE : ℚ := 5
def BALLAST_FILL_RATE : ℚ := 0.3
def BALLAST_DRAIN_RATE : ℚ := 0.4
def BALLAST_BUOYANCY_FORCE : ℚ := 15
def COMPRESSED_AIR_RATE : ℚ := 0.2
def COMPRESSOR_POWER_DRAIN : ℚ := 0.5
def POWER_RECHARGE_RATE : ℚ := 0.1

/-- Truncation toward zero, the rounding used by Rust's float remainder. -/
def ratTrunc (q : ℚ) : ℤ := if 0 ≤ q then ⌊q⌋ else ⌈q⌉

/-- Rust float remainder: x % y = x - y * trunc (x / y).  The result has
the sign of the dividend x. -/
def rustRem (x y : ℚ) : ℚ := x - y * (ratTrunc (x / y) : ℚ)

/-- fn normalize_angle (src/main.rs:219-221):
(angle + 2.0 * PI) % (2.0 * PI). -/
def normalize_angle (angle : ℚ) : ℚ := rustRem (angle + 2 * PI) (2 * PI)

lemma ratTrunc_of_nonneg {q : ℚ} (h : 0 ≤ q) : ratTrunc q = ⌊q⌋ := by
  simp [ratTrunc, h]

/-- For a nonnegative dividend and positive divisor, the Rust remainder
agrees with the mathematical modulus and lies in [0, y). -/
lemma rustRem_nonneg_lt {x y : ℚ} (hx : 0 ≤ x) (hy : 0 < y) :
    0 ≤ rustRem x y ∧ rustRem x y < y := by
  have hdiv : 0 ≤ x / y := div_nonneg hx hy.le
  have htr : ratTrunc (x / y) = ⌊x / y⌋ := ratTrunc_of_nonneg hdiv
  have hy0 : y ≠ 0 := ne_of_gt hy
  have hrepr : rustRem x y = y * Int.fract (x / y) := by
    unfold rustRem
    rw [htr, Int.fract]
    have hxy : y * (x / y) = x := by
      field_simp
    calc x - y * (⌊x / y⌋ : ℚ) = y * (x / y) - y * (⌊x / y⌋ : ℚ) := by
          rw [hxy]
      _ = y * (x / y - (⌊x / y⌋ : ℚ)) := by ring
  constructor
  · rw [hrepr]
    exact mul_nonneg hy.le (Int.fract_nonneg _)
  · rw [hrepr]
    calc y * Int.fract (x / y) < y * 1 :=
          (mul_lt_mul_left hy).mpr (Int.fract_lt_one _)
      _ = y := mul_one y

/-- The Rust remainder differs from the dividend by an integer multiple of
the divisor. -/
lemma rustRem_sub_int_mul (x y : ℚ) :
    ∃ k : ℤ, rustRem x y = x - y * (k : ℚ) := ⟨ratTrunc (x / y), rfl⟩

lemma two_pi_pos : (0 : ℚ) < 2 * PI := by norm_num [PI]

/-- C1 counterexample: normalize_angle (-7) is negative (the input -7 is
below -2π, a single added turn does not reach [0, 2π)). -/
theorem normalize_angle_neg_input_counterexample :
    normalize_angle (-7) < 0 ∧ ¬ (0 ≤ normalize_angle (-7)) := by
  norm_num [normalize_angle, rustRem, ratTrunc, Int.ceil_neg, PI]

/-- C1 (amended): for every input a ≥ -2π (so that adding a single turn
makes the dividend of the remainder nonnegative), normalize_angle a lies
in [0, 2π).  The unamended claim, quantifying over all real inputs
including those below -2π, is refuted by the counterexample above. -/
theorem normalize_angle_mem_Ico (a : ℚ) (h : -(2 * PI) ≤ a) :
    0 ≤ normalize_angle a ∧ normalize_angle a < 2 * PI := by
  have hx : 0 ≤ a + 2 * PI := by linarith
  exact rustRem_nonneg_lt hx two_pi_pos

/-- Witness for the amended C1 theorem at the concrete input a = -6. -/
theorem normalize_angle_mem_Ico_witness :
    0 ≤ normalize_angle (-6) ∧ normalize_angle (-6) < 2 * PI :=
  normalize_angle_mem_Ico (-6) (by norm_num [PI])

/-! ## Ballast and power controller (fn ballast_control_system, src/main.rs:1195-1276) -/

/-- Resource BallastState (src/main.rs:102-110). -/
structure BallastState where
  fill_level : ℚ
  vents_open : Bool
  air_valve_open : Bool
  compressed_air : ℚ
  compressor_on : Bool
  electricity : ℚ
deriving DecidableEq, Repr

/-- impl Default for BallastState (src/main.rs:152-163): empty tanks,
closed valves, full compressed air, compressor off, full electricity. -/
def BallastState.init : BallastState :=
  { fill_level := 0
    vents_open := false
    air_valve_open := false
    compressed_air := 1
    compressor_on := false
    electricity := 100 }

/-- Per-tick inputs of ballast_control_system: the three just-pressed
toggle keys (Q, E, R), the submarine depth (-translation.y, or 0 when no
submarine exists), and the frame delta time. -/
structure BallastInput where
  pressQ : Bool
  pressE : Bool
  pressR : Bool
  depth : ℚ
  dt : ℚ
deriving DecidableEq, Repr

/-- Toggle handling (src/main.rs:1210-1236): Q toggles the vents and, if
they are now open, closes the air valve; E toggles the air valve and, if
it is now open, closes the vents; R toggles the compressor at the surface
and forces it off below the surface. -/
def toggleStep (s : BallastState) (i : BallastInput) : BallastState :=
  let s1 :=
    if i.pressQ then
      let v := !s.vents_open
      { s with vents_open := v
               air_valve_open := if v then false else s.air_valve_open }
    else s
  let s2 :=
    if i.pressE then
      let a := !s1.air_valve_open
      { s1 with air_valve_open := a
                vents_open := if a then false else s1.vents_open }
    else s1
  if i.pressR then
    if i.depth ≤ 0 then { s2 with compressor_on := !s2.compressor_on }
    else { s2 with compressor_on := false }
  else s2

/-- Compressor update (src/main.rs:1239-1249): generate compressed air and
drain electricity when the compressor runs at the surface with power;
force the compressor off when underwater. -/
def compressorStep (s : BallastState) (i : BallastInput) : BallastState :=
  if s.compressor_on ∧ 0 < s.electricity ∧ i.depth ≤ 0 then
    { s with compressed_air := min (s.compressed_air + COMPRESSED_AIR_RATE * i.dt) 1
             electricity := max (s.electricity - COMPRESSOR_POWER_DRAIN * i.dt) 0 }
  else if 0 < i.depth then { s with compressor_on := false }
  else s

/-- Electricity recharge (src/main.rs:1252-1255): recharge slowly while
the compressor is off, capped at 100. -/
def rechargeStep (s : BallastState) (i : BallastInput) : BallastState :=
  if !s.compressor_on then
    { s with electricity := min (s.electricity + POWER_RECHARGE_RATE * i.dt) 100 }
  else s

/-- Ballast transfer (src/main.rs:1258-1275): vents open fill the tank,
capped at 1; otherwise an open air valve with compressed air available
drains the tank (floored at 0), consumes air at half the drain rate
(floored at 0), and closes the air valve when the tank is empty. -/
def transferStep (s : BallastState) (i : BallastInput) : BallastState :=
  if s.vents_open then
    { s with fill_level := min (s.fill_level + BALLAST_FILL_RATE * i.dt) 1 }
  else if s.air_valve_open ∧ 0 < s.compressed_air then
    let fill := max (s.fill_level - BALLAST_DRAIN_RATE * i.dt) 0
    let air := max (s.compressed_air - BALLAST_DRAIN_RATE * i.dt * 0.5) 0
    { s with fill_level := fill
             compressed_air := air
             air_valve_open := if fill ≤ 0 then false else s.air_valve_open }
  else s

/-- The state of the ballast controller just before the transfer stage of
a tick: toggles, then compressor, then recharge. -/
def preTransfer (s : BallastState) (i : BallastInput) : BallastState :=
  rechargeStep (compressorStep (toggleStep s i) i) i

/-- One full tick of fn ballast_control_system (src/main.rs:1195-1276). -/
def ballast_control_system (s : BallastState) (i : BallastInput) : BallastState :=
  transferStep (preTransfer s i) i

/-- Iterating the ballast controller from the initial state over a list of
per-tick inputs. -/
def ballastRun (inputs : List BallastInput) : BallastState :=
  inputs.foldl ballast_control_system BallastState.init

/-- The mutual-exclusion invariant of the two valves. -/
def ValvesExclusive (s : BallastState) : Prop :=
  ¬ (s.vents_open = true ∧ s.air_valve_open = true)

lemma toggleStep_valves_exclusive (s : BallastState) (i : BallastInput)
    (h : ValvesExclusive s) : ValvesExclusive (toggleStep s i) := by
  unfold ValvesExclusive at *
  unfold toggleStep
  rcases i with ⟨q, e, r, depth, dt⟩
  rcases s with ⟨fl, v, a, ca, co, el⟩
  cases q <;> cases e <;> cases r <;> cases v <;> cases a <;> simp_all <;>
    (try split) <;> simp_all

lemma compressorStep_vents (s : BallastState) (i : BallastInput) :
    (compressorStep s i).vents_open = s.vents_open := by
  unfold compressorStep
  split <;> [skip; split] <;> rfl

lemma compressorStep_air_valve (s : BallastState) (i : BallastInput) :
    (compressorStep s i).air_valve_open = s.air_valve_open := by
  unfold compressorStep
  split <;> [skip; split] <;> rfl

lemma rechargeStep_vents (s : BallastState) (i : BallastInput) :
    (rechargeStep s i).vents_open = s.vents_open := by
  unfold rechargeStep
  split <;> rfl

lemma rechargeStep_air_valve (s : BallastState) (i : BallastInput) :
    (rechargeStep s i).air_valve_open = s.air_valve_open := by
  unfold rechargeStep
  split <;> rfl

lemma transferStep_valves_exclusive (s : BallastState) (i : BallastInput)
    (h : ValvesExclusive s) : ValvesExclusive (transferStep s i) := by
  unfold ValvesExclusive at *
  unfold transferStep
  split
  · simpa using h
  · split
    · simp only
      split <;> simp_all
    · exact h

lemma ballast_tick_valves_exclusive (s : BallastState) (i : BallastInput)
    (h : ValvesExclusive s) : ValvesExclusive (ballast_control_system s i) := by
  unfold ballast_control_system preTransfer
  apply transferStep_valves_exclusive
  unfold ValvesExclusive
  rw [rechargeStep_vents, rechargeStep_air_valve,
    compressorStep_vents, compressorStep_air_valve]
  exact toggleStep_valves_exclusive s i h

/-- C2: for every sequence of ticks with any toggle requests, starting
from the initial ballast state, the vents and the air valve are never both
open at the end of a tick. -/
theorem ballast_valves_never_both_open (inputs : List BallastInput) :
    ¬ ((ballastRun inputs).vents_open = true ∧
       (ballastRun inputs).air_valve_open = true) := by
  suffices h : ∀ s : BallastState, ValvesExclusive s →
      ValvesExclusive (inputs.foldl ballast_control_system s) by
    exact h BallastState.init (by simp [ValvesExclusive, BallastState.init])
  induction inputs with
  | nil => intro s hs; simpa using hs
  | cons i rest ih =>
      intro s hs
      exact ih _ (ballast_tick_valves_exclusive s i hs)

/-- The documented closed intervals of the quantitative ballast fields. -/
def ResourcesInBounds (s : BallastState) : Prop :=
  0 ≤ s.fill_level ∧ s.fill_level ≤ 1 ∧
  0 ≤ s.compressed_air ∧ s.compressed_air ≤ 1 ∧
  0 ≤ s.electricity ∧ s.electricity ≤ 100

lemma toggleStep_resources (s : BallastState) (i : BallastInput) :
    (toggleStep s i).fill_level = s.fill_level ∧
    (toggleStep s i).compressed_air = s.compressed_air ∧
    (toggleStep s i).electricity = s.electricity := by
  unfold toggleStep
  rcases i with ⟨q, e, r, depth, dt⟩
  cases q <;> cases e <;> cases r <;> simp_all <;> (try split) <;> simp_all

lemma compressorStep_bounds (s : BallastState) (i : BallastInput)
    (hdt : 0 ≤ i.dt) (h : ResourcesInBounds s) :
    ResourcesInBounds (compressorStep s i) := by
  obtain ⟨h1, h2, h3, h4, h5, h6⟩ := h
  unfold compressorStep ResourcesInBounds
  split
  · refine ⟨h1, h2, ?_, ?_, ?_, ?_⟩
    · simp only
      have : 0 ≤ s.compressed_air + COMPRESSED_AIR_RATE * i.dt := by
        have : 0 ≤ COMPRESSED_AIR_RATE * i.dt := by
          apply mul_nonneg _ hdt
          norm_num [COMPRESSED_AIR_RATE]
        linarith
      exact le_min this (by norm_num)
    · exact min_le_right _ _
    · exact le_max_right _ _
    · simp only
      have : s.electricity - COMPRESSOR_POWER_DRAIN * i.dt ≤ 100 := by
        have : 0 ≤ COMPRESSOR_POWER_DRAIN * i.dt := by
          apply mul_nonneg _ hdt
          norm_num [COMPRESSOR_POWER_DRAIN]
        linarith
      exact max_le this (by norm_num)
  · split
    · exact ⟨h1, h2, h3, h4, h5, h6⟩
    · exact ⟨h1, h2, h3, h4, h5, h6⟩

lemma rechargeStep_bounds (s : BallastState) (i : BallastInput)
    (hdt : 0 ≤ i.dt) (h : ResourcesInBounds s) :
    ResourcesInBounds (rechargeStep s i) := by
  obtain ⟨h1, h2, h3, h4, h5, h6⟩ := h
  unfold rechargeStep ResourcesInBounds
  split
  · refine ⟨h1, h2, h3, h4, ?_, ?_⟩
    · simp only
      have : 0 ≤ POWER_RECHARGE_RATE * i.dt := by
        apply mul_nonneg _ hdt
        norm_num [POWER_RECHARGE_RATE]
      exact le_min (by linarith) (by norm_num)
    · exact min_le_right _ _
  · exact ⟨h1, h2, h3, h4, h5, h6⟩

lemma transferStep_bounds (s : BallastState) (i : BallastInput)
    (hdt : 0 ≤ i.dt) (h : ResourcesInBounds s) :
    ResourcesInBounds (transferStep s i) := by
  obtain ⟨h1, h2, h3, h4, h5, h6⟩ := h
  unfold transferStep ResourcesInBounds
  split
  · refine ⟨?_, ?_, h3, h4, h5, h6⟩
    · simp only
      have : 0 ≤ BALLAST_FILL_RATE * i.dt := by
        apply mul_nonneg _ hdt
        norm_num [BALLAST_FILL_RATE]
      exact le_min (by linarith) (by norm_num)
    · exact min_le_right _ _
  · split
    · refine ⟨le_max_right _ _, ?_, le_max_right _ _, ?_, h5, h6⟩
      · simp only
        have : 0 ≤ BALLAST_DRAIN_RATE * i.dt := by
          apply mul_nonneg _ hdt
          norm_num [BALLAST_DRAIN_RATE]
        exact max_le (by linarith) (by norm_num)
      · simp only
        have : 0 ≤ BALLAST_DRAIN_RATE * i.dt * 0.5 := by
          apply mul_nonneg (mul_nonneg _ hdt)
          · norm_num
          · norm_num [BALLAST_DRAIN_RATE]
        exact max_le (by linarith) (by norm_num)
    · exact ⟨h1, h2, h3, h4, h5, h6⟩

lemma ballast_tick_bounds (s : BallastState) (i : BallastInput)
    (hdt : 0 ≤ i.dt) (h : ResourcesInBounds s) :
    ResourcesInBounds (ballast_control_system s i) := by
  unfold ballast_control_system preTransfer
  apply transferStep_bounds _ _ hdt
  apply rechargeStep_bounds _ _ hdt
  apply compressorStep_bounds _ _ hdt
  obtain ⟨e1, e2, e3⟩ := toggleStep_resources s i
  unfold ResourcesInBounds at *
  rw [e1, e2, e3]
  exact h

/-- C3: for every sequence of ticks with nonnegative delta times and any
toggle requests and depths, starting from the initial ballast state,
fill_level stays in [0, 1], compressed_air stays in [0, 1] and
electricity stays in [0, 100] after every tick. -/
theorem ballast_resources_in_bounds (inputs : List BallastInput)
    (hdt : ∀ i ∈ inputs, 0 ≤ i.dt) :
    0 ≤ (ballastRun inputs).fill_level ∧ (ballastRun inputs).fill_level ≤ 1 ∧
    0 ≤ (ballastRun inputs).compressed_air ∧ (ballastRun inputs).compressed_air ≤ 1 ∧
    0 ≤ (ballastRun inputs).electricity ∧ (ballastRun inputs).electricity ≤ 100 := by
  suffices h : ∀ s : BallastState, ResourcesInBounds s →
      ResourcesInBounds (inputs.foldl ballast_control_system s) by
    exact h BallastState.init (by norm_num [ResourcesInBounds, BallastState.init])
  induction inputs with
  | nil => intro s hs; simpa using hs
  | cons i rest ih =>
      intro s hs
      have hi : 0 ≤ i.dt := hdt i (List.mem_cons_self i rest)
      have hrest : ∀ j ∈ rest, 0 ≤ j.dt := fun j hj =>
        hdt j (List.mem_cons_of_mem i hj)
      exact ih hrest _ (ballast_tick_bounds s i hi hs)

/-- Witness for C3 at a concrete two-tick input sequence. -/
theorem ballast_resources_in_bounds_witness :
    0 ≤ (ballastRun [⟨true, false, false, 0, 1⟩, ⟨false, true, false, 2, 1⟩]).fill_level ∧
    (ballastRun [⟨true, false, false, 0, 1⟩, ⟨false, true, false, 2, 1⟩]).fill_level ≤ 1 ∧
    0 ≤ (ballastRun [⟨true, false, false, 0, 1⟩, ⟨false, true, false, 2, 1⟩]).compressed_air ∧
    (ballastRun [⟨true, false, false, 0, 1⟩, ⟨false, true, false, 2, 1⟩]).compressed_air ≤ 1 ∧
    0 ≤ (ballastRun [⟨true, false, false, 0, 1⟩, ⟨false, true, false, 2, 1⟩]).electricity ∧
    (ballastRun [⟨true, false, false, 0, 1⟩, ⟨false, true, false, 2, 1⟩]).electricity ≤ 100 :=
  ballast_resources_in_bounds _ (by
    intro i hi
    fin_cases hi <;> norm_num)

lemma transferStep_drain (t : BallastState) (i : BallastInput)
    (h1 : t.vents_open = false) (h2 : t.air_valve_open = true)
    (h3 : 0 < t.compressed_air) :
    (transferStep t i).fill_level
      = max (t.fill_level - BALLAST_DRAIN_RATE * i.dt) 0 ∧
    (transferStep t i).compressed_air
      = max (t.compressed_air - BALLAST_DRAIN_RATE * i.dt * 0.5) 0 ∧
    ((transferStep t i).fill_level ≤ 0 →
      (transferStep t i).air_valve_open = false) ∧
    (¬ (transferStep t i).fill_level ≤ 0 →
      (transferStep t i).air_valve_open = true) := by
  unfold transferStep
  simp only [h1, h2, h3, Bool.false_eq_true, if_false, if_true, true_and, and_true]
  constructor
  · intro hle
    simp [hle]
  · intro hgt
    simp [hgt]

lemma transferStep_vents (t : BallastState) (i : BallastInput)
    (h : t.vents_open = true) :
    (transferStep t i).compressed_air = t.compressed_air := by
  unfold transferStep
  simp [h]

/-- C7: in every ballast tick whose transfer stage starts with the vents
closed, the air valve open and compressed air available, the fill level
drops by the drain rate times the delta time (floored at 0), the
compressed air drops by exactly half the drain rate times the delta time
(floored at 0), and the air valve is forced closed exactly when the fill
level reaches 0; and in every tick whose transfer stage starts with the
vents open, the transfer stage does not consume compressed air. -/
theorem ballast_transfer_spec (s : BallastState) (i : BallastInput) :
    ((preTransfer s i).vents_open = false →
     (preTransfer s i).air_valve_open = true →
     0 < (preTransfer s i).compressed_air →
      (ballast_control_system s i).fill_level
        = max ((preTransfer s i).fill_level - BALLAST_DRAIN_RATE * i.dt) 0 ∧
      (ballast_control_system s i).compressed_air
        = max ((preTransfer s i).compressed_air - BALLAST_DRAIN_RATE * i.dt * 0.5) 0 ∧
      ((ballast_control_system s i).fill_level ≤ 0 →
        (ballast_control_system s i).air_valve_open = false) ∧
      (¬ (ballast_control_system s i).fill_level ≤ 0 →
        (ballast_control_system s i).air_valve_open = true)) ∧
    ((preTransfer s i).vents_open = true →
      (ballast_control_system s i).compressed_air
        = (preTransfer s i).compressed_air) := by
  constructor
  · intro h1 h2 h3
    exact transferStep_drain (preTransfer s i) i h1 h2 h3
  · intro h
    exact transferStep_vents (preTransfer s i) i h

/-- Witness for C7: one tick from the initial state in which the E key is
pressed (opening the air valve) with depth 0 and delta time 1. -/
theorem ballast_transfer_spec_witness :
    (ballast_control_system BallastState.init ⟨false, true, false, 0, 1⟩).fill_level
      = max ((preTransfer BallastState.init ⟨false, true, false, 0, 1⟩).fill_level
          - BALLAST_DRAIN_RATE * 1) 0 ∧
    (ballast_control_system BallastState.init ⟨false, true, false, 0, 1⟩).compressed_air
      = max ((preTransfer BallastState.init ⟨false, true, false, 0, 1⟩).compressed_air
          - BALLAST_DRAIN_RATE * 1 * 0.5) 0 ∧
    ((ballast_control_system BallastState.init ⟨false, true, false, 0, 1⟩).fill_level ≤ 0 →
      (ballast_control_system BallastState.init ⟨false, true, false, 0, 1⟩).air_valve_open
        = false) ∧
    (¬ (ballast_control_system BallastState.init ⟨false, true, false, 0, 1⟩).fill_level ≤ 0 →
      (ballast_control_system BallastState.init ⟨false, true, false, 0, 1⟩).air_valve_open
        = true) :=
  (ballast_transfer_spec BallastState.init ⟨false, true, false, 0, 1⟩).1
    (by norm_num [preTransfer, toggleStep, compressorStep, rechargeStep, BallastState.init])
    (by norm_num [preTransfer, toggleStep, compressorStep, rechargeStep, BallastState.init])
    (by norm_num [preTransfer, toggleStep, compressorStep, rechargeStep, BallastState.init])

/-! ## Vectors, yaw rotations and abstract float operations -/

structure Vec3 where
  x : ℚ
  y : ℚ
  z : ℚ
deriving DecidableEq, Repr

def Vec3.add (a b : Vec3) : Vec3 := ⟨a.x + b.x, a.y + b.y, a.z + b.z⟩

def Vec3.sub (a b : Vec3) : Vec3 := ⟨a.x - b.x, a.y - b.y, a.z - b.z⟩

def Vec3.smul (k : ℚ) (v : Vec3) : Vec3 := ⟨k * v.x, k * v.y, k * v.z⟩

/-- Squared Euclidean norm.  The source's v.length() > 0.0 tests are
modelled as normSq v > 0, which is equivalent for the real square root. -/
def Vec3.normSq (v : Vec3) : ℚ := v.x * v.x + v.y * v.y + v.z * v.z

/-- The library float functions used by the source (sin, cos, atan2, sqrt
of f32) have no exact computable counterpart on ℚ; they are passed in as
an abstract record, constrained in theorems only by the identities of the
corresponding real functions that a claim relies on. -/
structure FloatOps where
  sin : ℚ → ℚ
  cos : ℚ → ℚ
  atan2 : ℚ → ℚ → ℚ
  sqrt : ℚ → ℚ

def FloatOps.length (ops : FloatOps) (v : Vec3) : ℚ := ops.sqrt v.normSq

/-- Vec3::normalize: the vector divided by its length. -/
def FloatOps.normalize (ops : FloatOps) (v : Vec3) : Vec3 :=
  Vec3.smul (1 / ops.length v) v

/-- A rotation about the world Y axis, represented by the cosine and sine
of its angle.  The submarine transform's rotation is only ever composed
with Quat::from_rotation_y in the source, so it stays such a rotation. -/
structure Rot where
  c : ℚ
  s : ℚ
deriving DecidableEq, Repr

/-- Action of the yaw rotation on a vector (Quat * Vec3). -/
def Rot.apply (r : Rot) (v : Vec3) : Vec3 :=
  ⟨r.c * v.x + r.s * v.z, v.y, -r.s * v.x + r.c * v.z⟩

/-- Action of the inverse yaw rotation (rotation.inverse() * v). -/
def Rot.applyInv (r : Rot) (v : Vec3) : Vec3 :=
  ⟨r.c * v.x - r.s * v.z, v.y, r.s * v.x + r.c * v.z⟩

/-- Composition of two yaw rotations (quaternion product). -/
def Rot.comp (a b : Rot) : Rot :=
  ⟨a.c * b.c - a.s * b.s, a.s * b.c + a.c * b.s⟩

/-- Quat::from_rotation_y. -/
def FloatOps.rotY (ops : FloatOps) (theta : ℚ) : Rot :=
  ⟨ops.cos theta, ops.sin theta⟩

/-- A concrete instance of the abstract float operations, used to
instantiate witnesses. -/
def zeroOps : FloatOps :=
  { sin := fun _ => 0, cos := fun _ => 0, atan2 := fun _ _ => 0, sqrt := fun _ => 0 }

/-! ## Submarine kinematics (fn submarine_movement, src/main.rs:783-863) -/

/-- The submarine transform and Rapier velocity. -/
structure SubState where
  pos : Vec3
  rot : Rot
  vel : Vec3
deriving DecidableEq, Repr

/-- Keyboard state read by submarine_movement in one tick. -/
structure SubInput where
  keyW : Bool
  keyS : Bool
  keyA : Bool
  keyD : Bool
  dt : ℚ
deriving DecidableEq, Repr

/-- move_direction (src/main.rs:791-802): +1 while W is held, -1 while S
is held. -/
def moveDirection (i : SubInput) : ℚ :=
  (if i.keyW then 1 else 0) + (if i.keyS then -1 else 0)

/-- Yaw updates from the A/D keys (src/main.rs:804-809), turn_speed 1.5. -/
def turnStep (ops : FloatOps) (r : Rot) (i : SubInput) : Rot :=
  let r1 := if i.keyA then Rot.comp (ops.rotY (1.5 * i.dt)) r else r
  if i.keyD then Rot.comp (ops.rotY (-(1.5 * i.dt))) r1 else r1

/-- Thrust or drag (src/main.rs:827-839): with any thrust intent the whole
velocity vector is assigned the rotated forward direction times
move_direction times speed (speed = 10); otherwise the velocity is
multiplied by the damping factor 0.9. -/
def thrustStep (rot : Rot) (vel : Vec3) (i : SubInput) : Vec3 :=
  let lv :=
    if 0 < |moveDirection i| then
      Vec3.smul (moveDirection i * 10) (rot.apply ⟨0, 0, -1⟩)
    else ⟨0, 0, 0⟩
  if 0 < lv.normSq then lv else Vec3.smul 0.9 vel

/-- Buoyancy (src/main.rs:843-852): at or below the surface, add the net
of the constant upward buoyancy minus the ballast weight to the vertical
velocity, integrated over the delta time. -/
def buoyancyStep (fill_level : ℚ) (pos vel : Vec3) (dt : ℚ) : Vec3 :=
  if pos.y ≤ 0 then
    { vel with y := vel.y +
        (BASE_BUOYANCY_FORCE - fill_level * BALLAST_BUOYANCY_FORCE) * dt }
  else vel

/-- The velocity of a tick just before the surface clamp. -/
def preClampVel (ops : FloatOps) (fill : ℚ) (s : SubState) (i : SubInput) : Vec3 :=
  buoyancyStep fill s.pos (thrustStep (turnStep ops s.rot i) s.vel i) i.dt

/-- One tick of fn submarine_movement (src/main.rs:783-863): the rotation,
velocity and surface-clamp updates of the submarine.  The camera-state
mutations performed by the same function (arrow keys) only touch
CameraState and are modelled with camera_follow.  fill is the ballast
fill level read from BallastState. -/
def submarine_movement (ops : FloatOps) (fill : ℚ) (s : SubState) (i : SubInput) :
    SubState :=
  let rot2 := turnStep ops s.rot i
  let v2 := preClampVel ops fill s i
  if 0 < s.pos.y then
    { pos := ⟨s.pos.x, 0, s.pos.z⟩
      rot := rot2
      vel := if 0 < v2.y then ⟨v2.x, 0, v2.z⟩ else v2 }
  else { pos := s.pos, rot := rot2, vel := v2 }

/-- C4: in every kinematics tick that starts with the submarine above the
surface plane (y > 0), the vertical position is set to exactly 0 and, if
the pre-clamp vertical velocity is positive, it is zeroed, while a
non-positive pre-clamp vertical velocity is left unchanged. -/
theorem surface_clamp_spec (ops : FloatOps) (fill : ℚ) (s : SubState) (i : SubInput)
    (h : 0 < s.pos.y) :
    (submarine_movement ops fill s i).pos.y = 0 ∧
    (0 < (preClampVel ops fill s i).y →
      (submarine_movement ops fill s i).vel.y = 0) ∧
    (¬ 0 < (preClampVel ops fill s i).y →
      (submarine_movement ops fill s i).vel.y = (preClampVel ops fill s i).y) := by
  refine ⟨?_, ?_, ?_⟩
  · unfold submarine_movement
    simp [if_pos h]
  · intro hv
    unfold submarine_movement
    simp [if_pos h, if_pos hv]
  · intro hv
    unfold submarine_movement
    simp [if_pos h, if_neg hv]

/-- Witness for C4: a stationary submarine that drifted to y = 1/2 with no
keys held. -/
theorem surface_clamp_spec_witness :
    (submarine_movement zeroOps 0
      ⟨⟨0, 1/2, 0⟩, ⟨1, 0⟩, ⟨0, 0, 0⟩⟩ ⟨false, false, false, false, 1⟩).pos.y = 0 ∧
    (0 < (preClampVel zeroOps 0
        ⟨⟨0, 1/2, 0⟩, ⟨1, 0⟩, ⟨0, 0, 0⟩⟩ ⟨false, false, false, false, 1⟩).y →
      (submarine_movement zeroOps 0
        ⟨⟨0, 1/2, 0⟩, ⟨1, 0⟩, ⟨0, 0, 0⟩⟩ ⟨false, false, false, false, 1⟩).vel.y = 0) ∧
    (¬ 0 < (preClampVel zeroOps 0
        ⟨⟨0, 1/2, 0⟩, ⟨1, 0⟩, ⟨0, 0, 0⟩⟩ ⟨false, false, false, false, 1⟩).y →
      (submarine_movement zeroOps 0
        ⟨⟨0, 1/2, 0⟩, ⟨1, 0⟩, ⟨0, 0, 0⟩⟩ ⟨false, false, false, false, 1⟩).vel.y
        = (preClampVel zeroOps 0
            ⟨⟨0, 1/2, 0⟩, ⟨1, 0⟩, ⟨0, 0, 0⟩⟩ ⟨false, false, false, false, 1⟩).y) :=
  surface_clamp_spec zeroOps 0
    ⟨⟨0, 1/2, 0⟩, ⟨1, 0⟩, ⟨0, 0, 0⟩⟩ ⟨false, false, false, false, 1⟩ (by norm_num)

/-- C6 counterexample: with thrust intent present (W held), an identity
orientation and a prior vertical velocity of 1, the thrust assignment sets
the vertical velocity component to 0: it is not left unchanged, refuting
the claim that only the horizontal component is written. -/
theorem thrust_vertical_velocity_counterexample :
    moveDirection ⟨true, false, false, false, 1⟩ ≠ 0 ∧
    (thrustStep ⟨1, 0⟩ ⟨0, 1, 0⟩ ⟨true, false, false, false, 1⟩).y = 0 ∧
    (⟨0, 1, 0⟩ : Vec3).y = 1 := by
  norm_num [thrustStep, moveDirection, Vec3.smul, Vec3.normSq, Rot.apply]

/-- C6 (amended): with a non-zero thrust intent and a unit orientation,
the thrust assignment overwrites the whole velocity: the horizontal
components become the rotated intent times speed and the vertical
component is set to 0 (zeroed, not preserved); with zero intent the
velocity is multiplied by the damping factor 0.9 < 1. -/
theorem thrust_assignment_spec (rot : Rot) (vel : Vec3) (i : SubInput)
    (hunit : rot.c ^ 2 + rot.s ^ 2 = 1) :
    (moveDirection i ≠ 0 →
      (thrustStep rot vel i).x = moveDirection i * 10 * (-rot.s) ∧
      (thrustStep rot vel i).y = 0 ∧
      (thrustStep rot vel i).z = moveDirection i * 10 * (-rot.c)) ∧
    (moveDirection i = 0 → thrustStep rot vel i = Vec3.smul 0.9 vel) ∧
    (0.9 : ℚ) < 1 := by
  refine ⟨?_, ?_, by norm_num⟩
  · intro hd
    have habs : 0 < |moveDirection i| := abs_pos.mpr hd
    have h10 : moveDirection i * 10 ≠ 0 := mul_ne_zero hd (by norm_num)
    have hpos : 0 < (Vec3.smul (moveDirection i * 10) (rot.apply ⟨0, 0, -1⟩)).normSq := by
      have hlv : (Vec3.smul (moveDirection i * 10) (rot.apply ⟨0, 0, -1⟩)).normSq
          = (moveDirection i * 10) * (moveDirection i * 10) := by
        simp only [Vec3.smul, Vec3.normSq, Rot.apply]
        linear_combination (100 * moveDirection i ^ 2) * hunit
      rw [hlv]
      exact mul_self_pos.mpr h10
    simp only [thrustStep, if_pos habs, if_pos hpos]
    simp only [Vec3.smul, Rot.apply]
    refine ⟨by ring, by ring, by ring⟩
  · intro hd
    unfold thrustStep
    simp [hd, Vec3.normSq]

/-- Witness for the amended C6 theorem: identity orientation, W held,
prior velocity (0, 1, 0); and the drag case with no keys held. -/
theorem thrust_assignment_spec_witness :
    (moveDirection ⟨true, false, false, false, 1⟩ ≠ 0 →
      (thrustStep ⟨1, 0⟩ ⟨0, 1, 0⟩ ⟨true, false, false, false, 1⟩).x
        = moveDirection ⟨true, false, false, false, 1⟩ * 10 * (-(0 : ℚ)) ∧
      (thrustStep ⟨1, 0⟩ ⟨0, 1, 0⟩ ⟨true, false, false, false, 1⟩).y = 0 ∧
      (thrustStep ⟨1, 0⟩ ⟨0, 1, 0⟩ ⟨true, false, false, false, 1⟩).z
        = moveDirection ⟨true, false, false, false, 1⟩ * 10 * (-(1 : ℚ))) ∧
    (moveDirection ⟨true, false, false, false, 1⟩ = 0 →
      thrustStep ⟨1, 0⟩ ⟨0, 1, 0⟩ ⟨true, false, false, false, 1⟩
        = Vec3.smul 0.9 ⟨0, 1, 0⟩) ∧
    (0.9 : ℚ) < 1 :=
  thrust_assignment_spec ⟨1, 0⟩ ⟨0, 1, 0⟩ ⟨true, false, false, false, 1⟩ (by norm_num)

/-! ## Observer tracking (fn camera_follow, src/main.rs:865-897) -/

/-- Resource CameraState (src/main.rs:84-90). -/
structure CameraState where
  distance : ℚ
  yaw : ℚ
  pitch : ℚ
  target_yaw : ℚ
deriving DecidableEq, Repr

/-- The wrapped angular difference of fn camera_follow (src/main.rs:881-883):
(target_yaw - yaw + PI) % (2 PI) - PI, with the Rust float remainder. -/
def angle_diff (target yaw : ℚ) : ℚ :=
  rustRem (target - yaw + PI) (2 * PI) - PI

/-- One tick of fn camera_follow (src/main.rs:865-897): the camera-state
update (target yaw, smoothed yaw with lerp speed 2) and the smoothed
camera position (lerp factor 0.1).  The final look_at reorientation only
sets the camera's own rotation and is not modelled. -/
def camera_follow (ops : FloatOps) (cam : CameraState) (camPos : Vec3)
    (subYaw : ℚ) (subPos : Vec3) (dt : ℚ) : CameraState × Vec3 :=
  let cam1 := { cam with
    target_yaw := subYaw
    yaw := cam.yaw + angle_diff subYaw cam.yaw * 2 * dt }
  let x := cam1.distance * ops.sin cam1.yaw
  let y := cam1.distance * ops.sin cam1.pitch + 5
  let z := cam1.distance * ops.cos cam1.yaw * ops.cos cam1.pitch
  let targetPos := Vec3.add subPos ⟨x, y, z⟩
  (cam1, Vec3.add camPos (Vec3.smul 0.1 (Vec3.sub targetPos camPos)))

/-- C5 counterexample: for target_yaw = 0 and yaw = 5 (a pair reachable
since the camera yaw is an unbounded accumulator), the computed angular
difference is -5, which is below -π: it is not the shortest signed
difference wrapped into (-π, π] (that would be 2π - 5). -/
theorem angle_diff_not_wrapped_counterexample :
    angle_diff 0 5 = -5 ∧ angle_diff 0 5 < -PI ∧
    ¬ (-PI < angle_diff 0 5 ∧ angle_diff 0 5 ≤ PI) := by
  norm_num [angle_diff, rustRem, ratTrunc, Int.ceil_neg, PI]

/-- C5 (amended): whenever target_yaw - yaw + π is nonnegative, the
angular difference computed by camera_follow lies in [-π, π) and differs
from target_yaw - yaw by an integer multiple of 2π (so it is the wrapped
signed difference, with boundary convention [-π, π) rather than (-π, π]);
for target_yaw - yaw + π < 0 it can leave that interval, as the
counterexample shows.  In every tick the camera yaw is incremented by the
angular difference times the lerp speed 2 times the delta time, and the
target yaw is set to the submarine yaw. -/
theorem camera_yaw_update_spec (ops : FloatOps) (cam : CameraState)
    (camPos subPos : Vec3) (subYaw dt : ℚ)
    (h : 0 ≤ subYaw - cam.yaw + PI) :
    -PI ≤ angle_diff subYaw cam.yaw ∧ angle_diff subYaw cam.yaw < PI ∧
    (∃ k : ℤ, angle_diff subYaw cam.yaw = subYaw - cam.yaw - 2 * PI * (k : ℚ)) ∧
    (camera_follow ops cam camPos subYaw subPos dt).1.yaw
      = cam.yaw + angle_diff subYaw cam.yaw * 2 * dt ∧
    (camera_follow ops cam camPos subYaw subPos dt).1.target_yaw = subYaw := by
  obtain ⟨h0, h1⟩ := rustRem_nonneg_lt h two_pi_pos
  refine ⟨?_, ?_, ?_, rfl, rfl⟩
  · unfold angle_diff
    linarith
  · unfold angle_diff
    linarith
  · obtain ⟨k, hk⟩ := rustRem_sub_int_mul (subYaw - cam.yaw + PI) (2 * PI)
    refine ⟨k, ?_⟩
    unfold angle_diff
    rw [hk]
    ring

/-- Witness for the amended C5 theorem: camera yaw 0, submarine yaw 0. -/
theorem camera_yaw_update_spec_witness :
    -PI ≤ angle_diff 0 (⟨25, 0, 0, 0⟩ : CameraState).yaw ∧
    angle_diff 0 (⟨25, 0, 0, 0⟩ : CameraState).yaw < PI ∧
    (∃ k : ℤ, angle_diff 0 (⟨25, 0, 0, 0⟩ : CameraState).yaw
      = 0 - (⟨25, 0, 0, 0⟩ : CameraState).yaw - 2 * PI * (k : ℚ)) ∧
    (camera_follow zeroOps ⟨25, 0, 0, 0⟩ ⟨0, 0, 0⟩ 0 ⟨0, 0, 0⟩ 1).1.yaw
      = (⟨25, 0, 0, 0⟩ : CameraState).yaw
        + angle_diff 0 (⟨25, 0, 0, 0⟩ : CameraState).yaw * 2 * 1 ∧
    (camera_follow zeroOps ⟨25, 0, 0, 0⟩ ⟨0, 0, 0⟩ 0 ⟨0, 0, 0⟩ 1).1.target_yaw = 0 :=
  camera_yaw_update_spec zeroOps ⟨25, 0, 0, 0⟩ ⟨0, 0, 0⟩ ⟨0, 0, 0⟩ 0 1
    (by norm_num [PI])

/-! ## Directional scan subsystem (src/main.rs:302-315, 1145-1176) -/

/-- fn calculate_fish_angle (src/main.rs:302-308): atan2 of the negated
lateral and negated forward local components, plus a quarter turn, then
normalized. -/
def calculate_fish_angle (ops : FloatOps) (local_rel : Vec3) : ℚ :=
  normalize_angle (ops.atan2 (-local_rel.x) (-local_rel.z) + FRAC_PI_2)

/-- fn calculate_sonar_position (src/main.rs:310-315): polar-to-panel
projection around the sonar center, with the vertical axis inverted. -/
def calculate_sonar_position (ops : FloatOps) (fish_angle distance : ℚ) : ℚ × ℚ :=
  let scaled_dist := distance / SONAR_RANGE * SONAR_RADIUS
  (SONAR_CENTER_X + scaled_dist * ops.cos fish_angle,
   SONAR_CENTER_Y - scaled_dist * ops.sin fish_angle)

/-- The submarine transform as read by the detection pass. -/
structure Pose where
  pos : Vec3
  rot : Rot
deriving DecidableEq, Repr

/-- The distance computed for a candidate fish: rel.length()
(src/main.rs:1157). -/
def fishDist (ops : FloatOps) (sub : Pose) (fishPos : Vec3) : ℚ :=
  ops.sqrt (Vec3.sub fishPos sub.pos).normSq

/-- The record pushed for a detected fish (src/main.rs:1162-1171):
(blip_x, blip_y, fish_angle) from the local-frame relative offset. -/
def detectionRecord (ops : FloatOps) (sub : Pose) (fishPos : Vec3) : ℚ × ℚ × ℚ :=
  let rel := Vec3.sub fishPos sub.pos
  let local_rel := sub.rot.applyInv rel
  let fish_angle := calculate_fish_angle ops local_rel
  let bp := calculate_sonar_position ops fish_angle (fishDist ops sub fishPos)
  (bp.1, bp.2, fish_angle)

/-- The detection loop of fn sonar_detection_system (src/main.rs:1152-1172):
every fish beyond SONAR_RANGE is skipped, every other fish contributes
exactly one record. -/
def sonarScan (ops : FloatOps) (sub : Pose) (fish : List Vec3) :
    List (ℚ × ℚ × ℚ) :=
  fish.filterMap fun ft =>
    if SONAR_RANGE < fishDist ops sub ft then none
    else some (detectionRecord ops sub ft)

/-- fn sonar_detection_system (src/main.rs:1145-1176): with a submarine
present the detection list is recomputed from scratch and assigned,
replacing the previous list; without one the previous list is kept. -/
def sonar_detection_system (ops : FloatOps) (sub : Option Pose)
    (fish : List Vec3) (prev : List (ℚ × ℚ × ℚ)) : List (ℚ × ℚ × ℚ) :=
  match sub with
  | some p => sonarScan ops p fish
  | none => prev

lemma sonarScan_eq_map_filter (ops : FloatOps) (p : Pose) (fish : List Vec3) :
    sonarScan ops p fish
      = (fish.filter fun ft => fishDist ops p ft ≤ SONAR_RANGE).map
          (detectionRecord ops p) := by
  induction fish with
  | nil => rfl
  | cons ft rest ih =>
      by_cases hft : SONAR_RANGE < fishDist ops p ft
      · have hnot : ¬ fishDist ops p ft ≤ SONAR_RANGE := not_le.mpr hft
        simp only [sonarScan, List.filterMap_cons, if_pos hft, List.filter_cons,
          decide_eq_true_eq, if_neg hnot]
        exact ih
      · have hle : fishDist ops p ft ≤ SONAR_RANGE := not_lt.mp hft
        simp only [sonarScan, List.filterMap_cons, if_neg hft, List.filter_cons,
          decide_eq_true_eq, if_pos hle, List.map_cons]
        exact congrArg _ ih

/-- C8: with a submarine present, the detection list after a pass is
exactly one record per fish whose computed distance is at most
SONAR_RANGE (hence its length equals the number of in-range fish, and
every listed record comes from a fish with distance ≤ SONAR_RANGE), and
the result does not depend on the previous tick's list: the list is
replaced, not merged. -/
theorem sonar_detection_replaces_list (ops : FloatOps) (sub : Option Pose)
    (p : Pose) (fish : List Vec3) (prev : List (ℚ × ℚ × ℚ))
    (h : sub = some p) :
    sonar_detection_system ops sub fish prev
      = (fish.filter fun ft => fishDist ops p ft ≤ SONAR_RANGE).map
          (detectionRecord ops p) ∧
    (sonar_detection_system ops sub fish prev).length
      = (fish.filter fun ft => fishDist ops p ft ≤ SONAR_RANGE).length ∧
    (∀ r ∈ sonar_detection_system ops sub fish prev,
      ∃ ft ∈ fish, fishDist ops p ft ≤ SONAR_RANGE ∧ r = detectionRecord ops p ft) ∧
    (∀ prev2 : List (ℚ × ℚ × ℚ), sonar_detection_system ops sub fish prev2
      = sonar_detection_system ops sub fish prev) := by
  subst h
  have hscan := sonarScan_eq_map_filter ops p fish
  have hsys : ∀ q : List (ℚ × ℚ × ℚ),
      sonar_detection_system ops (some p) fish q = sonarScan ops p fish :=
    fun _ => rfl
  refine ⟨by rw [hsys, hscan], by rw [hsys, hscan, List.length_map], ?_, ?_⟩
  · intro r hr
    rw [hsys, hscan] at hr
    obtain ⟨ft, hmem, hrec⟩ := List.mem_map.mp hr
    obtain ⟨hfish, hdec⟩ := List.mem_filter.mp hmem
    exact ⟨ft, hfish, of_decide_eq_true hdec, hrec.symm⟩
  · intro prev2
    rw [hsys, hsys]

/-- Witness for C8: one fish ahead at distance sqrt-of-1 and one fish far
away, with a nonempty previous list to be replaced. -/
theorem sonar_detection_replaces_list_witness :
    sonar_detection_system zeroOps (some ⟨⟨0, 0, 0⟩, ⟨1, 0⟩⟩)
        [⟨0, 0, -1⟩, ⟨100, 0, 0⟩] [(0, 0, 0)]
      = (([⟨0, 0, -1⟩, ⟨100, 0, 0⟩] : List Vec3).filter fun ft =>
          fishDist zeroOps ⟨⟨0, 0, 0⟩, ⟨1, 0⟩⟩ ft ≤ SONAR_RANGE).map
          (detectionRecord zeroOps ⟨⟨0, 0, 0⟩, ⟨1, 0⟩⟩) ∧
    (sonar_detection_system zeroOps (some ⟨⟨0, 0, 0⟩, ⟨1, 0⟩⟩)
        [⟨0, 0, -1⟩, ⟨100, 0, 0⟩] [(0, 0, 0)]).length
      = (([⟨0, 0, -1⟩, ⟨100, 0, 0⟩] : List Vec3).filter fun ft =>
          fishDist zeroOps ⟨⟨0, 0, 0⟩, ⟨1, 0⟩⟩ ft ≤ SONAR_RANGE).length ∧
    (∀ r ∈ sonar_detection_system zeroOps (some ⟨⟨0, 0, 0⟩, ⟨1, 0⟩⟩)
        [⟨0, 0, -1⟩, ⟨100, 0, 0⟩] [(0, 0, 0)],
      ∃ ft ∈ ([⟨0, 0, -1⟩, ⟨100, 0, 0⟩] : List Vec3),
        fishDist zeroOps ⟨⟨0, 0, 0⟩, ⟨1, 0⟩⟩ ft ≤ SONAR_RANGE ∧
        r = detectionRecord zeroOps ⟨⟨0, 0, 0⟩, ⟨1, 0⟩⟩ ft) ∧
    (∀ prev2 : List (ℚ × ℚ × ℚ),
      sonar_detection_system zeroOps (some ⟨⟨0, 0, 0⟩, ⟨1, 0⟩⟩)
          [⟨0, 0, -1⟩, ⟨100, 0, 0⟩] prev2
        = sonar_detection_system zeroOps (some ⟨⟨0, 0, 0⟩, ⟨1, 0⟩⟩)
          [⟨0, 0, -1⟩, ⟨100, 0, 0⟩] [(0, 0, 0)]) :=
  sonar_detection_replaces_list zeroOps (some ⟨⟨0, 0, 0⟩, ⟨1, 0⟩⟩)
    ⟨⟨0, 0, 0⟩, ⟨1, 0⟩⟩ [⟨0, 0, -1⟩, ⟨100, 0, 0⟩] [(0, 0, 0)] rfl

/-- C9: for every entity dead ahead in the submarine's local frame (zero
lateral offset, positive forward offset, i.e. local z < 0) at a positive
distance within scan range, the bearing is the quarter turn FRAC_PI_2 and
the projected blip sits straight up from the panel center: its x equals
SONAR_CENTER_X and its y is below SONAR_CENTER_Y.  The abstract float
operations are constrained by the real-function identities
atan2 0 w = 0 (for the positive forward offset w = -z), cos (π/2) = 0 and
sin (π/2) = 1. -/
theorem bearing_dead_ahead_maps_up (ops : FloatOps) (y z d : ℚ)
    (hz : z < 0) (hd : 0 < d) (hdr : d ≤ SONAR_RANGE)
    (hatan2 : ops.atan2 0 (-z) = 0)
    (hcos : ops.cos FRAC_PI_2 = 0) (hsin : ops.sin FRAC_PI_2 = 1) :
    calculate_fish_angle ops ⟨0, y, z⟩ = FRAC_PI_2 ∧
    (calculate_sonar_position ops (calculate_fish_angle ops ⟨0, y, z⟩) d).1
      = SONAR_CENTER_X ∧
    (calculate_sonar_position ops (calculate_fish_angle ops ⟨0, y, z⟩) d).2
      < SONAR_CENTER_Y := by
  have hang : calculate_fish_angle ops ⟨0, y, z⟩ = FRAC_PI_2 := by
    unfold calculate_fish_angle
    simp only [neg_zero, hatan2, zero_add]
    norm_num [normalize_angle, rustRem, ratTrunc, PI, FRAC_PI_2]
  refine ⟨hang, ?_, ?_⟩
  · rw [hang]
    unfold calculate_sonar_position
    simp only [hcos]
    ring
  · rw [hang]
    unfold calculate_sonar_position
    simp only [hsin]
    have hscaled : 0 < d / SONAR_RANGE * SONAR_RADIUS := by
      apply mul_pos
      · apply div_pos hd
        norm_num [SONAR_RANGE]
      · norm_num [SONAR_RADIUS]
    simp only [mul_one]
    linarith

/-- Witness for C9: an entity one unit dead ahead, with float operations
satisfying the required trigonometric identities at the relevant points. -/
theorem bearing_dead_ahead_maps_up_witness :
    calculate_fish_angle
        ⟨fun _ => 1, fun _ => 0, fun _ _ => 0, fun _ => 0⟩ ⟨0, 0, -1⟩ = FRAC_PI_2 ∧
    (calculate_sonar_position ⟨fun _ => 1, fun _ => 0, fun _ _ => 0, fun _ => 0⟩
        (calculate_fish_angle
          ⟨fun _ => 1, fun _ => 0, fun _ _ => 0, fun _ => 0⟩ ⟨0, 0, -1⟩) 1).1
      = SONAR_CENTER_X ∧
    (calculate_sonar_position ⟨fun _ => 1, fun _ => 0, fun _ _ => 0, fun _ => 0⟩
        (calculate_fish_angle
          ⟨fun _ => 1, fun _ => 0, fun _ _ => 0, fun _ => 0⟩ ⟨0, 0, -1⟩) 1).2
      < SONAR_CENTER_Y :=
  bearing_dead_ahead_maps_up ⟨fun _ => 1, fun _ => 0, fun _ _ => 0, fun _ => 0⟩
    0 (-1) 1 (by norm_num) (by norm_num) (by norm_num [SONAR_RANGE]) rfl rfl rfl

/-! ## Autonomous steering (fn fish_movement, src/main.rs:899-974) -/

/-- Component FishMovement plus the fish transform (src/main.rs:68-74). -/
structure FishState where
  pos : Vec3
  direction : Vec3
  speed : ℚ
  change_direction_timer : ℚ
  change_direction_interval : ℚ
deriving DecidableEq, Repr

/-- Timer update and re-randomization (src/main.rs:906-937): the timer is
incremented by the delta time; when it reaches the interval, a new
direction is derived from periodic functions of the (incremented) timer
and the position and normalized, then the timer is reset to 0, and only
then is the new interval computed from the (now zero) timer and the x
position. -/
def fishRetarget (ops : FloatOps) (dt : ℚ) (s : FishState) : FishState :=
  let timer1 := s.change_direction_timer + dt
  if s.change_direction_interval ≤ timer1 then
    let random_x := ops.sin (timer1 * 0.5 + s.pos.x * 0.1) * 2 - 1
    let random_y := ops.cos (timer1 * 0.3 + s.pos.y * 0.2) * 0.5 - 0.25
    let random_z := ops.sin (timer1 * 0.7 + s.pos.z * 0.1) * 2 - 1
    let timer2 : ℚ := 0
    { s with
      direction := ops.normalize ⟨random_x, random_y, random_z⟩
      change_direction_timer := timer2
      change_direction_interval :=
        1.5 + ops.sin (timer2 * 0.2 + s.pos.x * 0.01) * 2 }
  else { s with change_direction_timer := timer1 }

/-- Sway and base movement (src/main.rs:939-950), using the possibly
reset timer. -/
def fishMove (ops : FloatOps) (dt : ℚ) (s : FishState) : FishState :=
  let sway_x := ops.sin (s.change_direction_timer * 2 + s.pos.x * 0.1) * 0.3
  let sway_z := ops.cos (s.change_direction_timer * 1.5 + s.pos.z * 0.1) * 0.3
  { s with pos := (Vec3.add s.pos
      (Vec3.add (Vec3.smul (s.speed * dt) s.direction)
        (Vec3.smul dt ⟨sway_x, 0, sway_z⟩))) }

/-- Surface containment (src/main.rs:952-957). -/
def fishSurface (s : FishState) : FishState :=
  if 0 < s.pos.y then
    { s with pos := ⟨s.pos.x, 0, s.pos.z⟩
             direction := { s.direction with y := -|s.direction.y| } }
  else s

/-- Radial containment at max distance 400 (src/main.rs:959-966). -/
def fishBoundary (ops : FloatOps) (dt : ℚ) (s : FishState) : FishState :=
  if 400 < ops.sqrt s.pos.normSq then
    { s with pos := (Vec3.add s.pos
        (Vec3.smul (dt * 3) (Vec3.smul (-1) (ops.normalize s.pos)))) }
  else s

/-- Depth containment at y = -25 (src/main.rs:968-972). -/
def fishDepth (s : FishState) : FishState :=
  if s.pos.y < -25 then
    { s with pos := ⟨s.pos.x, -25, s.pos.z⟩
             direction := { s.direction with y := |s.direction.y| } }
  else s

/-- One tick of fn fish_movement (src/main.rs:899-974) for a single fish. -/
def fish_movement (ops : FloatOps) (dt : ℚ) (s : FishState) : FishState :=
  fishDepth (fishBoundary ops dt (fishSurface (fishMove ops dt (fishRetarget ops dt s))))

lemma fishMove_timers (ops : FloatOps) (dt : ℚ) (s : FishState) :
    (fishMove ops dt s).change_direction_timer = s.change_direction_timer ∧
    (fishMove ops dt s).change_direction_interval = s.change_direction_interval :=
  ⟨rfl, rfl⟩

lemma fishSurface_timers (s : FishState) :
    (fishSurface s).change_direction_timer = s.change_direction_timer ∧
    (fishSurface s).change_direction_interval = s.change_direction_interval := by
  unfold fishSurface
  split <;> exact ⟨rfl, rfl⟩

lemma fishBoundary_timers (ops : FloatOps) (dt : ℚ) (s : FishState) :
    (fishBoundary ops dt s).change_direction_timer = s.change_direction_timer ∧
    (fishBoundary ops dt s).change_direction_interval = s.change_direction_interval := by
  unfold fishBoundary
  split <;> exact ⟨rfl, rfl⟩

lemma fishDepth_timers (s : FishState) :
    (fishDepth s).change_direction_timer = s.change_direction_timer ∧
    (fishDepth s).change_direction_interval = s.change_direction_interval := by
  unfold fishDepth
  split <;> exact ⟨rfl, rfl⟩

lemma fish_movement_timers (ops : FloatOps) (dt : ℚ) (s : FishState) :
    (fish_movement ops dt s).change_direction_timer
      = (fishRetarget ops dt s).change_direction_timer ∧
    (fish_movement ops dt s).change_direction_interval
      = (fishRetarget ops dt s).change_direction_interval := by
  unfold fish_movement
  obtain ⟨d1, i1⟩ := fishDepth_timers
    (fishBoundary ops dt (fishSurface (fishMove ops dt (fishRetarget ops dt s))))
  obtain ⟨d2, i2⟩ := fishBoundary_timers ops dt
    (fishSurface (fishMove ops dt (fishRetarget ops dt s)))
  obtain ⟨d3, i3⟩ := fishSurface_timers (fishMove ops dt (fishRetarget ops dt s))
  obtain ⟨d4, i4⟩ := fishMove_timers ops dt (fishRetarget ops dt s)
  exact ⟨by rw [d1, d2, d3, d4], by rw [i1, i2, i3, i4]⟩

lemma fishRetarget_triggered (ops : FloatOps) (dt : ℚ) (s : FishState)
    (htrig : s.change_direction_interval ≤ s.change_direction_timer + dt) :
    (fishRetarget ops dt s).change_direction_timer = 0 ∧
    (fishRetarget ops dt s).change_direction_interval
      = 1.5 + ops.sin (0.01 * s.pos.x) * 2 := by
  unfold fishRetarget
  rw [if_pos htrig]
  refine ⟨rfl, ?_⟩
  have harg : (0 : ℚ) * 0.2 + s.pos.x * 0.01 = 0.01 * s.pos.x := by ring
  simp only [harg]

/-- C10: in every fish tick whose timer (after the delta-time increment)
reaches the change interval, the timer is reset to 0 before the interval
is resampled, so the new interval is 1.5 + sin(0.01 * x) * 2 where x is
the fish's x position at the start of the tick — a value that depends
only on that x position, lies in [-0.5, 3.5] when sin stays in [-1, 1],
and, whenever it is ≤ 0, is reached again by the timer on the very next
tick for every nonnegative next delta time (the re-randomization branch
fires again). -/
theorem fish_interval_resample_spec (ops : FloatOps) (dt : ℚ) (s : FishState)
    (htrig : s.change_direction_interval ≤ s.change_direction_timer + dt)
    (hsin : ∀ q : ℚ, -1 ≤ ops.sin q ∧ ops.sin q ≤ 1) :
    (fish_movement ops dt s).change_direction_interval
      = 1.5 + ops.sin (0.01 * s.pos.x) * 2 ∧
    -0.5 ≤ (fish_movement ops dt s).change_direction_interval ∧
    (fish_movement ops dt s).change_direction_interval ≤ 3.5 ∧
    (fish_movement ops dt s).change_direction_timer = 0 ∧
    (∀ dt2 : ℚ, 0 ≤ dt2 →
      (fish_movement ops dt s).change_direction_interval ≤ 0 →
      (fish_movement ops dt s).change_direction_interval
        ≤ (fish_movement ops dt s).change_direction_timer + dt2) := by
  obtain ⟨ht, hi⟩ := fish_movement_timers ops dt s
  obtain ⟨ht0, hi0⟩ := fishRetarget_triggered ops dt s htrig
  have hival : (fish_movement ops dt s).change_direction_interval
      = 1.5 + ops.sin (0.01 * s.pos.x) * 2 := by rw [hi, hi0]
  have htval : (fish_movement ops dt s).change_direction_timer = 0 := by
    rw [ht, ht0]
  obtain ⟨hs1, hs2⟩ := hsin (0.01 * s.pos.x)
  refine ⟨hival, ?_, ?_, htval, ?_⟩
  · rw [hival]
    linarith
  · rw [hival]
    linarith
  · intro dt2 hdt2 hle
    rw [htval]
    linarith

/-- Witness for C10: a fish at the origin with timer 0 and interval 0
under float operations whose sin is constantly -1, yielding the minimal
resampled interval -0.5 (≤ 0, so the next tick re-randomizes again). -/
theorem fish_interval_resample_spec_witness :
    (fish_movement ⟨fun _ => -1, fun _ => 0, fun _ _ => 0, fun _ => 0⟩ 0
        ⟨⟨0, 0, 0⟩, ⟨1, 0, 0⟩, 1, 0, 0⟩).change_direction_interval
      = 1.5 + (⟨fun _ => -1, fun _ => 0, fun _ _ => 0, fun _ => 0⟩ :
          FloatOps).sin (0.01 * 0) * 2 ∧
    -0.5 ≤ (fish_movement ⟨fun _ => -1, fun _ => 0, fun _ _ => 0, fun _ => 0⟩ 0
        ⟨⟨0, 0, 0⟩, ⟨1, 0, 0⟩, 1, 0, 0⟩).change_direction_interval ∧
    (fish_movement ⟨fun _ => -1, fun _ => 0, fun _ _ => 0, fun _ => 0⟩ 0
        ⟨⟨0, 0, 0⟩, ⟨1, 0, 0⟩, 1, 0, 0⟩).change_direction_interval ≤ 3.5 ∧
    (fish_movement ⟨fun _ => -1, fun _ => 0, fun _ _ => 0, fun _ => 0⟩ 0
        ⟨⟨0, 0, 0⟩, ⟨1, 0, 0⟩, 1, 0, 0⟩).change_direction_timer = 0 ∧
    (∀ dt2 : ℚ, 0 ≤ dt2 →
      (fish_movement ⟨fun _ => -1, fun _ => 0, fun _ _ => 0, fun _ => 0⟩ 0
          ⟨⟨0, 0, 0⟩, ⟨1, 0, 0⟩, 1, 0, 0⟩).change_direction_interval ≤ 0 →
      (fish_movement ⟨fun _ => -1, fun _ => 0, fun _ _ => 0, fun _ => 0⟩ 0
          ⟨⟨0, 0, 0⟩, ⟨1, 0, 0⟩, 1, 0, 0⟩).change_direction_interval
        ≤ (fish_movement ⟨fun _ => -1, fun _ => 0, fun _ _ => 0, fun _ => 0⟩ 0
            ⟨⟨0, 0, 0⟩, ⟨1, 0, 0⟩, 1, 0, 0⟩).change_direction_timer + dt2) :=
  fish_interval_resample_spec ⟨fun _ => -1, fun _ => 0, fun _ _ => 0, fun _ => 0⟩ 0
    ⟨⟨0, 0, 0⟩, ⟨1, 0, 0⟩, 1, 0, 0⟩ (by norm_num)
    (fun q => ⟨by norm_num, by norm_num⟩)

end Submarine
